import Mathlib

set_option maxRecDepth 8000

/-!
Shallow embedding of the claudecode-on-claude task orchestrator.

Source files modelled:
* `src/worker-pool.ts` (WorkerPool, Poller),
* `src/claude.ts` (extractSessionId, with JSON.parse modelled by `jsonParse`),
* `src/review-handler.ts` (ReviewHandler.handle and the session store),
* `src/task-handler.ts` (TaskHandler.handle, extractDecisionPoints).

JavaScript `Map` objects are modelled as insertion-ordered association
lists with replace-on-set semantics (`alGet` / `alSet`).  Promise
rejection is modelled with `Option` / `Except`; the success or failure of
each external call made by a handler is supplied by an environment record,
and a handler run is modelled as the trace of external calls it attempts
together with its outcome.
-/

namespace Orchestrator

/-- Lookup in a JS `Map` modelled as an association list (first matching key). -/
def alGet {α β : Type} [DecidableEq α] : List (α × β) → α → Option β
  | [], _ => none
  | (k0, v0) :: rest, k => if k0 = k then some v0 else alGet rest k

/-- JS `Map.set`: replace the entry in place if the key is present, else append. -/
def alSet {α β : Type} [DecidableEq α] : List (α × β) → α → β → List (α × β)
  | [], k, v => [(k, v)]
  | (k0, v0) :: rest, k, v =>
      if k0 = k then (k, v) :: rest else (k0, v0) :: alSet rest k v

/-- Task status from `types.ts` (`TaskStatus`). -/
inductive TaskStatus
  | pending
  | inProgress
  | completed
  | failed
deriving DecidableEq, Repr

/-- Task type from `types.ts` (`WorkerTask.type`: `"issue" | "review"`). -/
inductive TaskType
  | issue
  | review
deriving DecidableEq, Repr

/-- A `WorkerTask` from `types.ts`; the `AbortController` is modelled by the
`aborted` flag. -/
structure WorkerTask where
  id : String
  type : TaskType
  issueNumber : Nat
  prNumber : Option Nat
  status : TaskStatus
  aborted : Bool
deriving DecidableEq, Repr

/-- The `WorkerPool` state from `worker-pool.ts`: the `tasks` map and the
configured `maxConcurrency`. -/
structure WorkerPool where
  tasks : List (String × WorkerTask)
  maxConcurrency : Nat
deriving DecidableEq, Repr

/-- A fresh pool (`new WorkerPool(maxConcurrency)`). -/
def initPool (m : Nat) : WorkerPool := ⟨[], m⟩

/-- `WorkerPool.activeCount`: number of tasks with status `in-progress`. -/
def WorkerPool.activeCount (p : WorkerPool) : Nat :=
  (p.tasks.filter (fun e => e.2.status == TaskStatus.inProgress)).length

/-- `WorkerPool.canAccept`: `activeCount < maxConcurrency`. -/
def WorkerPool.canAccept (p : WorkerPool) : Bool :=
  p.activeCount < p.maxConcurrency

/-- `WorkerPool.has(taskId)`: a task with that id exists and is `in-progress`
or `pending`. -/
def WorkerPool.has (p : WorkerPool) (taskId : String) : Bool :=
  match alGet p.tasks taskId with
  | some task => task.status == TaskStatus.inProgress || task.status == TaskStatus.pending
  | none => false

/-- `WorkerPool.submit`: skip when the pool is full, skip when the id is
already active, otherwise register the task as `in-progress` and start the
handler.  Returns the new pool and whether the handler was started. -/
def WorkerPool.submit (p : WorkerPool) (taskId : String) (ty : TaskType)
    (issueNumber : Nat) (prNumber : Option Nat) : WorkerPool × Bool :=
  if !p.canAccept then (p, false)
  else if p.has taskId then (p, false)
  else
    ({ p with
        tasks := alSet p.tasks taskId
          ⟨taskId, ty, issueNumber, prNumber, TaskStatus.inProgress, false⟩ },
      true)

/-- `WorkerPool.updateStatus`: set the status of the task with the given id,
if it exists. -/
def WorkerPool.updateStatus (p : WorkerPool) (taskId : String)
    (st : TaskStatus) : WorkerPool :=
  { p with
      tasks := p.tasks.map (fun e =>
        if e.1 = taskId then (e.1, { e.2 with status := st }) else e) }

/-- `WorkerPool.cancelAll`: abort every `in-progress` task and mark it
`failed`. -/
def WorkerPool.cancelAll (p : WorkerPool) : WorkerPool :=
  { p with
      tasks := p.tasks.map (fun e =>
        if e.2.status == TaskStatus.inProgress then
          (e.1, { e.2 with aborted := true, status := TaskStatus.failed })
        else e) }

/-- Events that mutate a pool: a `submit` call, the asynchronous resolution of
a submitted handler (`.then` marks `completed`, `.catch` marks `failed`), and
`cancelAll`.  Handler resolutions are modelled as freely scheduled events, so
every interleaving of handler completions is covered. -/
inductive PoolEvent
  | submit (taskId : String) (ty : TaskType) (issueNumber : Nat) (prNumber : Option Nat)
  | settle (taskId : String) (ok : Bool)
  | cancelAll
deriving DecidableEq, Repr

/-- Apply one pool event. -/
def applyEvent (p : WorkerPool) : PoolEvent → WorkerPool
  | PoolEvent.submit taskId ty n pr => (p.submit taskId ty n pr).1
  | PoolEvent.settle taskId ok =>
      p.updateStatus taskId (if ok then TaskStatus.completed else TaskStatus.failed)
  | PoolEvent.cancelAll => p.cancelAll

/-- Apply a sequence of pool events in order. -/
def applyEvents (evs : List PoolEvent) (p : WorkerPool) : WorkerPool :=
  evs.foldl applyEvent p

/-- Issue snapshot from `types.ts` (`TrackedIssue`). -/
structure TrackedIssue where
  number : Nat
  title : String
  body : String
deriving DecidableEq, Repr

/-- Review comment from `types.ts` (`ReviewComment`), restricted to the fields
the Poller and ReviewHandler read. -/
structure RComment where
  id : Nat
  prNumber : Nat
  body : String
deriving DecidableEq, Repr

/-- Environment of one `Poller.poll` cycle: the outcomes of the two GitHub
fetches (`.error` models a rejected promise) and the current time
(`new Date().toISOString()` modelled as a `Nat`). -/
structure PollEnv where
  fetchIssues : Except Unit (List TrackedIssue)
  fetchComments : Except Unit (List RComment)
  now : Nat

/-- Loop body of `Poller.pollIssues`: for each issue compute `issue-<n>`,
`continue` when the pool has it, `break` when the pool cannot accept,
otherwise submit. -/
def issuesLoop : List TrackedIssue → WorkerPool → WorkerPool
  | [], p => p
  | i :: rest, p =>
      let taskId := "issue-" ++ toString i.number
      if p.has taskId then issuesLoop rest p
      else if !p.canAccept then p
      else issuesLoop rest (p.submit taskId TaskType.issue i.number none).1

/-- `Poller.pollIssues`: throws iff the labeled-issue fetch rejects, else runs
the submission loop. -/
def pollIssues (env : PollEnv) (p : WorkerPool) : Except Unit WorkerPool :=
  match env.fetchIssues with
  | Except.error e => Except.error e
  | Except.ok issues => Except.ok (issuesLoop issues p)

/-- Grouping of review comments by PR number (`byPR` map in
`Poller.pollReviewComments`). -/
def groupByPR (comments : List RComment) : List (Nat × List RComment) :=
  comments.foldl
    (fun m c => alSet m c.prNumber (((alGet m c.prNumber).getD []) ++ [c])) []

/-- Loop body of `Poller.pollReviewComments`: for each PR group compute
`review-<pr>-<now>`, `break` when the pool cannot accept, otherwise submit. -/
def reviewLoop (now : Nat) : List (Nat × List RComment) → WorkerPool → WorkerPool
  | [], p => p
  | (pr, cs) :: rest, p =>
      let taskId := "review-" ++ toString pr ++ "-" ++ toString now
      if !p.canAccept then p
      else
        let firstPR := match cs with
          | c :: _ => c.prNumber
          | [] => 0
        reviewLoop now rest (p.submit taskId TaskType.review firstPR (some pr)).1

/-- `Poller.pollReviewComments`: throws iff the comment fetch rejects, else
groups by PR and runs the submission loop. -/
def pollReviewComments (env : PollEnv) (p : WorkerPool) : Except Unit WorkerPool :=
  match env.fetchComments with
  | Except.error e => Except.error e
  | Except.ok cs => Except.ok (reviewLoop env.now (groupByPR cs) p)

/-- Result of one polling cycle: the pool, the `lastPollTime` field after the
cycle, and whether each sub-scan was invoked. -/
structure PollOutcome where
  pool : WorkerPool
  time : Nat
  issuesRan : Bool
  reviewRan : Bool
deriving DecidableEq, Repr

/-- `Poller.poll`: one cycle.  The whole body sits in a single try/catch:
`pollIssues`, then `pollReviewComments`, then advance `lastPollTime`; a throw
anywhere is caught and logged, leaving `lastPollTime` unchanged. -/
def Poller.poll (env : PollEnv) (p : WorkerPool) (lastPollTime : Nat) : PollOutcome :=
  match pollIssues env p with
  | Except.error _ => ⟨p, lastPollTime, true, false⟩
  | Except.ok p1 =>
      match pollReviewComments env p1 with
      | Except.error _ => ⟨p1, lastPollTime, true, true⟩
      | Except.ok p2 => ⟨p2, env.now, true, true⟩

/-- True iff an `Except` models a promise that resolved. -/
def exceptOk {α : Type} : Except Unit α → Bool
  | Except.ok _ => true
  | Except.error _ => false

/-! JSON values and a fuel-based recursive-descent parser modelling the
`JSON.parse` builtin used by `extractSessionId` in `claude.ts`.  Numbers keep
their lexeme (their numeric value is never read by the code under study). -/

/-- Characters written via their code points to keep string literals plain. -/
def quoteC : Char := Char.ofNat 34

/-- Backslash character. -/
def backslashC : Char := Char.ofNat 92

/-- Opening curly bracket. -/
def lbraceC : Char := Char.ofNat 123

/-- Closing curly bracket. -/
def rbraceC : Char := Char.ofNat 125

/-- A JSON value. -/
inductive Json
  | null
  | bool (b : Bool)
  | num (lexeme : String)
  | str (s : String)
  | arr (elems : List Json)
  | obj (members : List (String × Json))

/-- JSON insignificant whitespace. -/
def isJsonWs (c : Char) : Bool :=
  c = ' ' || c = '\t' || c = '\n' || c = '\r'

/-- Drop insignificant whitespace. -/
def skipWs (cs : List Char) : List Char :=
  cs.dropWhile isJsonWs

/-- Value of a hex digit. -/
def hexVal (c : Char) : Option Nat :=
  if '0' ≤ c ∧ c ≤ '9' then some (c.toNat - 48)
  else if 'a' ≤ c ∧ c ≤ 'f' then some (c.toNat - 87)
  else if 'A' ≤ c ∧ c ≤ 'F' then some (c.toNat - 55)
  else none

/-- Single-character string escapes. -/
def escChar (c : Char) : Option Char :=
  if c = quoteC then some quoteC
  else if c = backslashC then some backslashC
  else if c = '/' then some '/'
  else if c = 'b' then some (Char.ofNat 8)
  else if c = 'f' then some (Char.ofNat 12)
  else if c = 'n' then some '\n'
  else if c = 'r' then some '\r'
  else if c = 't' then some '\t'
  else none

/-- Parse the remainder of a JSON string (after the opening quote), returning
its decoded characters and the input after the closing quote. -/
def parseStrLoop : Nat → List Char → Option (List Char × List Char)
  | 0, _ => none
  | _, [] => none
  | fuel + 1, c :: rest =>
      if c = quoteC then some ([], rest)
      else if c = backslashC then
        match rest with
        | [] => none
        | e :: rest2 =>
            if e = 'u' then
              match rest2 with
              | a :: b :: c2 :: d :: rest3 =>
                  match hexVal a, hexVal b, hexVal c2, hexVal d with
                  | some ha, some hb, some hc, some hd =>
                      (parseStrLoop fuel rest3).map
                        (fun sr => (Char.ofNat (((ha * 16 + hb) * 16 + hc) * 16 + hd) :: sr.1, sr.2))
                  | _, _, _, _ => none
              | _ => none
            else
              match escChar e with
              | some ec => (parseStrLoop fuel rest2).map (fun sr => (ec :: sr.1, sr.2))
              | none => none
      else if c.toNat < 32 then none
      else (parseStrLoop fuel rest).map (fun sr => (c :: sr.1, sr.2))

/-- Match a literal character sequence. -/
def takeLit : List Char → List Char → Option (List Char)
  | [], cs => some cs
  | _ :: _, [] => none
  | l :: ls, c :: cs => if c = l then takeLit ls cs else none

/-- Parse a JSON number, returning its lexeme and the rest of the input. -/
def parseNum (cs : List Char) : Option (List Char × List Char) :=
  let (sign, cs1) :=
    match cs with
    | c :: rest => if c = '-' then (['-'], rest) else (([] : List Char), cs)
    | [] => (([] : List Char), cs)
  match cs1 with
  | [] => none
  | c :: rest =>
      if c = '0' then
        match rest with
        | d :: _ =>
            if d.isDigit then none
            else parseNumFrac (sign ++ ['0']) rest
        | [] => parseNumFrac (sign ++ ['0']) rest
      else if c.isDigit then
        let ds := rest.takeWhile Char.isDigit
        parseNumFrac (sign ++ (c :: ds)) (rest.dropWhile Char.isDigit)
      else none
where
  parseNumFrac (acc : List Char) (cs : List Char) : Option (List Char × List Char) :=
    match cs with
    | '.' :: rest =>
        let ds := rest.takeWhile Char.isDigit
        if ds.isEmpty then none
        else parseNumExp (acc ++ ('.' :: ds)) (rest.dropWhile Char.isDigit)
    | _ => parseNumExp acc cs
  parseNumExp (acc : List Char) (cs : List Char) : Option (List Char × List Char) :=
    match cs with
    | c :: rest =>
        if c = 'e' ∨ c = 'E' then
          let (sgn, rest2) :=
            match rest with
            | s :: r2 => if s = '+' ∨ s = '-' then ([s], r2) else (([] : List Char), rest)
            | [] => (([] : List Char), rest)
          let ds := rest2.takeWhile Char.isDigit
          if ds.isEmpty then none
          else some (acc ++ (c :: sgn) ++ ds, rest2.dropWhile Char.isDigit)
        else some (acc, cs)
    | [] => some (acc, cs)

mutual

/-- Parse one JSON value (leading whitespace allowed). -/
def parseVal : Nat → List Char → Option (Json × List Char)
  | 0, _ => none
  | fuel + 1, cs =>
      match skipWs cs with
      | [] => none
      | c :: rest =>
          if c = quoteC then
            (parseStrLoop (rest.length + 1) rest).map
              (fun sr => (Json.str (String.mk sr.1), sr.2))
          else if c = lbraceC then parseObjBody fuel rest
          else if c = '[' then parseArrBody fuel rest
          else if c = 't' then
            (takeLit ['r', 'u', 'e'] rest).map (fun r => (Json.bool true, r))
          else if c = 'f' then
            (takeLit ['a', 'l', 's', 'e'] rest).map (fun r => (Json.bool false, r))
          else if c = 'n' then
            (takeLit ['u', 'l', 'l'] rest).map (fun r => (Json.null, r))
          else if c = '-' ∨ c.isDigit then
            (parseNum (c :: rest)).map (fun sr => (Json.num (String.mk sr.1), sr.2))
          else none

/-- Parse an object body after the opening brace. -/
def parseObjBody : Nat → List Char → Option (Json × List Char)
  | 0, _ => none
  | fuel + 1, cs =>
      match skipWs cs with
      | [] => none
      | c :: rest =>
          if c = rbraceC then some (Json.obj [], rest)
          else (parseMembers fuel (c :: rest)).map (fun mr => (Json.obj mr.1, mr.2))

/-- Parse a nonempty comma-separated run of object members up to the closing
brace. -/
def parseMembers : Nat → List Char → Option (List (String × Json) × List Char)
  | 0, _ => none
  | fuel + 1, cs =>
      match skipWs cs with
      | [] => none
      | c :: rest =>
          if c = quoteC then
            match parseStrLoop (rest.length + 1) rest with
            | some (key, r2) =>
                match skipWs r2 with
                | ':' :: r4 =>
                    match parseVal fuel r4 with
                    | some (v, r5) =>
                        match skipWs r5 with
                        | c2 :: r7 =>
                            if c2 = ',' then
                              (parseMembers fuel r7).map
                                (fun mr => ((String.mk key, v) :: mr.1, mr.2))
                            else if c2 = rbraceC then
                              some ([(String.mk key, v)], r7)
                            else none
                        | [] => none
                    | none => none
                | _ => none
            | none => none
          else none

/-- Parse an array body after the opening bracket. -/
def parseArrBody : Nat → List Char → Option (Json × List Char)
  | 0, _ => none
  | fuel + 1, cs =>
      match skipWs cs with
      | [] => none
      | c :: rest =>
          if c = ']' then some (Json.arr [], rest)
          else (parseElems fuel (c :: rest)).map (fun er => (Json.arr er.1, er.2))

/-- Parse a nonempty comma-separated run of array elements up to the closing
bracket. -/
def parseElems : Nat → List Char → Option (List Json × List Char)
  | 0, _ => none
  | fuel + 1, cs =>
      match parseVal fuel cs with
      | some (v, r) =>
          match skipWs r with
          | c :: r2 =>
              if c = ',' then
                (parseElems fuel r2).map (fun er => (v :: er.1, er.2))
              else if c = ']' then some ([v], r2)
              else none
          | [] => none
      | none => none

end

/-- Model of the `JSON.parse` builtin: parse one value and require only
whitespace after it.  The fuel bound exceeds any recursion depth reachable on
the input, since every three fuel units consume at least one character. -/
def jsonParse (s : String) : Option Json :=
  match parseVal (s.data.length * 3 + 16) s.data with
  | some (v, rest) => if skipWs rest = [] then some v else none
  | none => none

/-- JS member access `parsed.session_id` guarded by the string `typeof`
check.  Property access on `null` throws a TypeError (modelled by `.error`);
on every other parsed value the access yields the field for objects (with
duplicate keys the last one wins) and `undefined` for the remaining
primitives and arrays, and only a string field passes the check. -/
def sidField (v : Json) : Except Unit (Option String) :=
  match v with
  | Json.null => Except.error ()
  | Json.obj members =>
      Except.ok
        (match (members.filter (fun m => m.1 == "session_id")).getLast? with
         | some (_, Json.str s) => some s
         | _ => none)
  | _ => Except.ok none

/-- JS `String.prototype.trim` whitespace (the code points occurring in the
inputs under study). -/
def isSpaceJS (c : Char) : Bool :=
  c = ' ' || c = '\t' || c = '\n' || c = '\r' || c = Char.ofNat 11 || c = Char.ofNat 12

/-- JS `stdout.trim()`. -/
def trimJS (cs : List Char) : List Char :=
  ((cs.dropWhile isSpaceJS).reverse.dropWhile isSpaceJS).reverse

/-- JS `String.prototype.split` on a newline. -/
def splitNlAux : List Char → List Char → List String
  | [], acc => [String.mk acc.reverse]
  | c :: rest, acc =>
      if c = '\n' then String.mk acc.reverse :: splitNlAux rest []
      else splitNlAux rest (c :: acc)

/-- The `lines` local of `extractSessionId`:
`stdout.trim().split("\n").filter(Boolean)`. -/
def linesOf (stdout : String) : List String :=
  (splitNlAux (trimJS stdout.data) []).filter (fun l => l != "")

/-- The backward fallback loop of `extractSessionId` over the lines before the
last one (already listed in backward order): the whole loop body sits in a
per-line try/catch, so a line that fails to parse, throws on the field access
(`null`), or parses without a string `session_id` is skipped. -/
def scanBack : List String → Option String
  | [] => none
  | l :: ls =>
      match jsonParse l with
      | some v =>
          match sidField v with
          | Except.ok (some s) => some s
          | _ => scanBack ls
      | none => scanBack ls

/-- `extractSessionId` from `claude.ts`: parse the last non-empty line; a
parse failure there, or a TypeError from the field access when it parses to
`null`, hits the outer catch and yields `none`; a parsed last line without a
string `session_id` falls back to the backward scan. -/
def extractSessionId (stdout : String) : Option String :=
  match (linesOf stdout).reverse with
  | [] => none
  | lastLine :: earlierRev =>
      match jsonParse lastLine with
      | none => none
      | some v =>
          match sidField v with
          | Except.error _ => none
          | Except.ok (some s) => some s
          | Except.ok none => scanBack earlierRev

/-- Whether a line parses as JSON whose non-throwing field access carries a
string `session_id`. -/
def hasSidLine (l : String) : Bool :=
  match jsonParse l with
  | some v =>
      match sidField v with
      | Except.ok (some _) => true
      | _ => false
  | none => false

/-! Backtracking matcher for the fixed regular expression used by
`TaskHandler.extractDecisionPoints` in `task-handler.ts`: the marker literal,
then greedy whitespace, a lazy dot-run capture, greedy whitespace, a pipe,
and the same again, ending in a greedy dot-run capture.  Alternatives are
listed in the engine's preference order and `List.findSome?` picks the first
complete match, which is exactly the JS backtracking search. -/

/-- JS regex `\s` on the code points occurring in the inputs under study. -/
def isWsRe (c : Char) : Bool :=
  c = ' ' || c = '\t' || c = '\n' || c = '\r' || c = Char.ofNat 11 || c = Char.ofNat 12

/-- JS regex `.` without the `s` flag: any char except line terminators. -/
def isDotRe (c : Char) : Bool :=
  !(c = '\n' || c = '\r' || c.toNat = 8232 || c.toNat = 8233)

/-- Remainders after `\s*`, longest consumption first (greedy). -/
def wsAlts (cs : List Char) : List (List Char) :=
  let run := (cs.takeWhile isWsRe).length
  (List.range (run + 1)).map (fun i => cs.drop (run - i))

/-- Captures and remainders for lazy `(.+?)`: shortest capture first. -/
def lazyAlts (cs : List Char) : List (List Char × List Char) :=
  let run := (cs.takeWhile isDotRe).length
  (List.range run).map (fun i => (cs.take (i + 1), cs.drop (i + 1)))

/-- Captures and remainders for greedy `(.+)`: longest capture first. -/
def greedyAlts (cs : List Char) : List (List Char × List Char) :=
  let run := (cs.takeWhile isDotRe).length
  (List.range run).map (fun i => (cs.take (run - i), cs.drop (run - i)))

/-- One extracted decision point (description, chosen option, rejected
option). -/
structure DecisionPoint where
  description : String
  chosen : String
  rejected : String
deriving DecidableEq, Repr

/-- The literal `[DECISION_POINT]` marker. -/
def dpMarker : List Char := "[DECISION_POINT]".data

/-- Try to match the decision-point pattern at the start of the input,
returning the three captures and the input after the match. -/
def dpMatchAt (cs : List Char) : Option (DecisionPoint × List Char) :=
  (takeLit dpMarker cs).bind fun r0 =>
  (wsAlts r0).findSome? fun r1 =>
  (lazyAlts r1).findSome? fun g1 =>
  (wsAlts g1.2).findSome? fun r3 =>
  match r3 with
  | c :: r4 =>
      if c = '|' then
        (wsAlts r4).findSome? fun r5 =>
        (lazyAlts r5).findSome? fun g2 =>
        (wsAlts g2.2).findSome? fun r7 =>
        match r7 with
        | c2 :: r8 =>
            if c2 = '|' then
              (wsAlts r8).findSome? fun r9 =>
              (greedyAlts r9).findSome? fun g3 =>
              some (⟨String.mk g1.1, String.mk g2.1, String.mk g3.1⟩, g3.2)
            else none
        | [] => none
      else none
  | [] => none

/-- The `exec` loop with the `g` flag: find the leftmost match at or after the
current position, record it, and continue right after it.  Every match
consumes at least the marker, so the fuel never runs out on real inputs. -/
def dpExecLoop : Nat → List Char → List DecisionPoint
  | 0, _ => []
  | _, [] => []
  | fuel + 1, c :: cs =>
      match dpMatchAt (c :: cs) with
      | some (dp, rest) => dp :: dpExecLoop fuel rest
      | none => dpExecLoop fuel cs

/-- `TaskHandler.extractDecisionPoints`: all matches of the decision-point
pattern over the agent output. -/
def extractDecisionPoints (output : String) : List DecisionPoint :=
  dpExecLoop (output.data.length + 1) output.data

/-! ReviewHandler (`review-handler.ts`).  The agent subprocess either rejects
(spawn error or pre-aborted signal) or resolves with an exit code and its
stdout; `runClaude` then computes `sessionId := extractSessionId stdout`.
The module-level `sessionStore` map is threaded through explicitly. -/

/-- The `sessionStore` map (PR number to session id). -/
abbrev SessionStore : Type := List (Nat × String)

/-- Resolved outcome of the agent subprocess. -/
structure AgentOutcome where
  exitCode : Nat
  stdout : String
deriving DecidableEq, Repr

/-- Environment of one `ReviewHandler.handle` run: success of each external
call, and the agent outcome (`none` models a rejected `runClaude` promise). -/
structure ReviewEnv where
  getPRBranchOk : Bool
  createWorktreeOk : Bool
  ackCommentOk : Bool
  agent : Option AgentOutcome
  gitPushOk : Bool
  doneCommentOk : Bool
  errCommentOk : Bool
  removeWorktreeOk : Bool

/-- `ReviewHandler.handle`: resolve the PR branch (outside the try block),
then worktree, acknowledgement comment, agent run, session-store write, exit
code check, push, completion comment; the catch posts a best-effort error
comment and the finally discards the worktree.  The store write is guarded by
JS truthiness on `result.sessionId`, so an empty-string session id is not
stored.  Returns the session store after the run and whether the run
succeeded. -/
def ReviewHandler.handle (env : ReviewEnv) (store : SessionStore) (prNumber : Nat) :
    SessionStore × Bool :=
  if !env.getPRBranchOk then (store, false)
  else if !env.createWorktreeOk then (store, false)
  else if !env.ackCommentOk then (store, false)
  else
    match env.agent with
    | none => (store, false)
    | some r =>
        let store1 :=
          match extractSessionId r.stdout with
          | some s => if s != "" then alSet store prNumber s else store
          | none => store
        if r.exitCode != 0 then (store1, false)
        else if !env.gitPushOk then (store1, false)
        else if !env.doneCommentOk then (store1, false)
        else (store1, true)

/-! TaskHandler (`task-handler.ts`).  A run is modelled as the trace of
external calls it attempts, in order, together with its outcome; calls whose
failures the code swallows with an empty catch are always attempted and their
own success flags never influence the trace. -/

/-- Comment kinds posted by `TaskHandler.handle`. -/
inductive CommentKind
  | ack
  | prLink
  | errorReport
deriving DecidableEq, Repr

/-- External calls attempted by `TaskHandler.handle`. -/
inductive TAct
  | removeLabel (label : String)
  | addLabel (label : String)
  | postComment (kind : CommentKind)
  | createWorktree
  | readTodo
  | runAgent
  | gitPush
  | createPR
  | removeWorktree
deriving DecidableEq, Repr

/-- The label names from the `LABELS` constant. -/
def triggerLabel : String := "auto-implement"

/-- The in-progress label. -/
def inProgressLabel : String := "auto-in-progress"

/-- The failure label. -/
def failedLabel : String := "auto-failed"

/-- Environment of one `TaskHandler.handle` run.  The flags of the
compensating calls in the catch block and of the worktree removal are present
but unread, because the code swallows those failures. -/
structure TaskEnv where
  removeTriggerOk : Bool
  addInProgressOk : Bool
  ackCommentOk : Bool
  createWorktreeOk : Bool
  agent : Option AgentOutcome
  gitPushOk : Bool
  createPROk : Bool
  linkCommentOk : Bool
  removeInProgressOk : Bool
  addFailedOk : Bool
  errCommentOk : Bool
  removeWorktreeOk : Bool

/-- The try block of `TaskHandler.handle`: label swap, acknowledgement,
worktree creation, prompt construction (best-effort todo read), agent run,
push, PR creation, link comment, in-progress label removal.  Returns the
attempted calls and whether the block completed without throwing. -/
def taskBody (env : TaskEnv) : List TAct × Bool :=
  let t0 := [TAct.removeLabel triggerLabel]
  if !env.removeTriggerOk then (t0, false)
  else
    let t1 := t0 ++ [TAct.addLabel inProgressLabel]
    if !env.addInProgressOk then (t1, false)
    else
      let t2 := t1 ++ [TAct.postComment CommentKind.ack]
      if !env.ackCommentOk then (t2, false)
      else
        let t3 := t2 ++ [TAct.createWorktree]
        if !env.createWorktreeOk then (t3, false)
        else
          let t4 := t3 ++ [TAct.readTodo, TAct.runAgent]
          match env.agent with
          | none => (t4, false)
          | some r =>
              if r.exitCode != 0 then (t4, false)
              else
                let t5 := t4 ++ [TAct.gitPush]
                if !env.gitPushOk then (t5, false)
                else
                  let t6 := t5 ++ [TAct.createPR]
                  if !env.createPROk then (t6, false)
                  else
                    let t7 := t6 ++ [TAct.postComment CommentKind.prLink]
                    if !env.linkCommentOk then (t7, false)
                    else
                      let t8 := t7 ++ [TAct.removeLabel inProgressLabel]
                      if !env.removeInProgressOk then (t8, false)
                      else (t8, true)

/-- `TaskHandler.handle`: the try block, then on a throw the catch block's
three independently swallowed compensations (remove the in-progress label,
add the failure label, post the error comment), then the finally block's
best-effort worktree removal. -/
def TaskHandler.handle (env : TaskEnv) : List TAct × Bool :=
  let body := taskBody env
  let t :=
    if body.2 then body.1
    else
      body.1 ++
        [TAct.removeLabel inProgressLabel, TAct.addLabel failedLabel,
          TAct.postComment CommentKind.errorReport]
  (t ++ [TAct.removeWorktree], body.2)

/-! Invariants of the WorkerPool registry. -/

/-- Every entry of `alSet l k v` is an old entry or the new binding. -/
lemma mem_alSet {α β : Type} [DecidableEq α] (l : List (α × β)) (k : α) (v : β) :
    ∀ e ∈ alSet l k v, e ∈ l ∨ e = (k, v) := by
  induction l with
  | nil => intro e he; simp [alSet] at he; exact Or.inr he
  | cons hd tl ih =>
      obtain ⟨k0, v0⟩ := hd
      intro e he
      simp only [alSet] at he
      by_cases hk : k0 = k
      · simp [hk] at he
        rcases he with he | he
        · exact Or.inr (by simp [he])
        · exact Or.inl (List.mem_cons_of_mem _ he)
      · simp [hk] at he
        rcases he with he | he
        · exact Or.inl (by simp [he])
        · rcases ih e he with h | h
          · exact Or.inl (List.mem_cons_of_mem _ h)
          · exact Or.inr h

/-- Keys of `alSet l k v` are among `k` and the keys of `l`. -/
lemma keys_alSet_sub {α β : Type} [DecidableEq α] (l : List (α × β)) (k : α) (v : β) :
    ∀ a ∈ (alSet l k v).map Prod.fst, a = k ∨ a ∈ l.map Prod.fst := by
  intro a ha
  simp only [List.mem_map] at ha
  obtain ⟨e, he, rfl⟩ := ha
  rcases mem_alSet l k v e he with h | h
  · exact Or.inr (List.mem_map_of_mem _ h)
  · exact Or.inl (by simp [h])

/-- `alSet` preserves distinctness of keys. -/
lemma nodup_keys_alSet {α β : Type} [DecidableEq α] (l : List (α × β)) (k : α) (v : β)
    (h : (l.map Prod.fst).Nodup) : ((alSet l k v).map Prod.fst).Nodup := by
  induction l with
  | nil => simp [alSet]
  | cons hd tl ih =>
      obtain ⟨k0, v0⟩ := hd
      simp only [List.map_cons, List.nodup_cons] at h
      by_cases hk : k0 = k
      · subst hk
        have hstep : alSet ((k0, v0) :: tl) k0 v = (k0, v) :: tl := by simp [alSet]
        rw [hstep]
        simp only [List.map_cons, List.nodup_cons]
        exact ⟨h.1, h.2⟩
      · simp only [alSet, if_neg hk, List.map_cons, List.nodup_cons]
        refine ⟨fun hmem => ?_, ih h.2⟩
        rcases keys_alSet_sub tl k v k0 hmem with h' | h'
        · exact hk h'
        · exact h.1 h'

/-- Mapping a first-component-preserving function over entries keeps the key
list. -/
lemma map_fst_preserved {β : Type} (l : List (String × β)) (g : String × β → String × β)
    (h : ∀ e, (g e).1 = e.1) : (l.map g).map Prod.fst = l.map Prod.fst := by
  induction l with
  | nil => rfl
  | cons hd tl ih => simp [h hd, ih]

/-- The registry invariant: distinct keys, and no task is ever `pending`. -/
def poolInv (p : WorkerPool) : Prop :=
  (p.tasks.map Prod.fst).Nodup ∧ ∀ e ∈ p.tasks, e.2.status ≠ TaskStatus.pending

/-- The fresh pool satisfies the invariant. -/
lemma poolInv_init (m : Nat) : poolInv (initPool m) := by
  constructor <;> simp [initPool]

/-- Every pool event preserves the invariant. -/
lemma poolInv_applyEvent (p : WorkerPool) (ev : PoolEvent) (h : poolInv p) :
    poolInv (applyEvent p ev) := by
  obtain ⟨hnd, hnp⟩ := h
  cases ev with
  | submit taskId ty n pr =>
      simp only [applyEvent, WorkerPool.submit]
      by_cases hc : p.canAccept
      · by_cases hh : p.has taskId
        · simp [hc, hh]; exact ⟨hnd, hnp⟩
        · simp only [hc, hh, Bool.not_true, Bool.false_eq_true, if_false, Bool.not_false,
            if_true]
          constructor
          · exact nodup_keys_alSet _ _ _ hnd
          · intro e he
            rcases mem_alSet _ _ _ e he with h' | h'
            · exact hnp e h'
            · subst h'; simp
      · simp [hc]; exact ⟨hnd, hnp⟩
  | settle taskId ok =>
      simp only [applyEvent, WorkerPool.updateStatus]
      constructor
      · rw [map_fst_preserved]
        · exact hnd
        · intro e; by_cases he : e.1 = taskId <;> simp [he]
      · intro e he
        simp only [List.mem_map] at he
        obtain ⟨e0, he0, rfl⟩ := he
        by_cases heq : e0.1 = taskId
        · simp only [heq, if_pos rfl]
          cases ok <;> simp
        · simp only [heq, if_neg heq]
          exact hnp e0 he0
  | cancelAll =>
      simp only [applyEvent, WorkerPool.cancelAll]
      constructor
      · rw [map_fst_preserved]
        · exact hnd
        · intro e; by_cases he : e.2.status == TaskStatus.inProgress <;> simp [he]
      · intro e he
        simp only [List.mem_map] at he
        obtain ⟨e0, he0, rfl⟩ := he
        by_cases heq : e0.2.status == TaskStatus.inProgress
        · simp [heq]
        · rw [if_neg heq]
          exact hnp e0 he0

/-- Every event sequence preserves the invariant. -/
lemma poolInv_applyEvents (evs : List PoolEvent) (p : WorkerPool) (h : poolInv p) :
    poolInv (applyEvents evs p) := by
  induction evs generalizing p with
  | nil => exact h
  | cons ev evs ih => exact ih _ (poolInv_applyEvent p ev h)

/-- A key absent from the key list matches no filtered entry. -/
lemma filter_no_key (l : List (String × WorkerTask)) (k : String)
    (q : String × WorkerTask → Bool) (h : k ∉ l.map Prod.fst) :
    l.filter (fun e => e.1 == k && q e) = [] := by
  induction l with
  | nil => rfl
  | cons hd tl ih =>
      simp only [List.map_cons, List.mem_cons] at h
      push_neg at h
      have hne : (hd.1 == k) = false := by
        simp only [beq_eq_false_iff_ne, ne_eq]
        exact fun he => h.1 he.symm
      simp [List.filter_cons, hne, ih h.2]

/-- A key absent from the key list satisfies no `any` over entries with that
key. -/
lemma any_no_key (l : List (String × WorkerTask)) (k : String)
    (q : String × WorkerTask → Bool) (h : k ∉ l.map Prod.fst) :
    (l.any (fun e => e.1 == k && q e)) = false := by
  induction l with
  | nil => rfl
  | cons hd tl ih =>
      simp only [List.map_cons, List.mem_cons] at h
      push_neg at h
      have hne : (hd.1 == k) = false := by
        simp only [beq_eq_false_iff_ne, ne_eq]
        exact fun he => h.1 he.symm
      simp [List.any_cons, hne, ih h.2]

/-- With distinct keys, at most one entry with a given key passes any
filter. -/
lemma filter_key_len (l : List (String × WorkerTask)) (k : String)
    (q : String × WorkerTask → Bool) (h : (l.map Prod.fst).Nodup) :
    (l.filter (fun e => e.1 == k && q e)).length ≤ 1 := by
  induction l with
  | nil => simp
  | cons hd tl ih =>
      simp only [List.map_cons, List.nodup_cons] at h
      by_cases hk : hd.1 = k
      · have : tl.filter (fun e => e.1 == k && q e) = [] :=
          filter_no_key tl k q (by rw [← hk]; exact h.1)
        by_cases hq : q hd
        · simp [List.filter_cons, hk, hq, this]
        · simp [List.filter_cons, hk, hq, this, ih h.2]
      · have hne : (hd.1 == k && q hd) = false := by simp [hk]
        simp only [List.filter_cons, hne, Bool.false_eq_true, if_false]
        exact ih h.2

/-- With distinct keys and no pending entries, the `has` lookup agrees with an
existence scan for an `in-progress` entry with that key. -/
lemma alGet_status_any (l : List (String × WorkerTask)) (k : String)
    (hnd : (l.map Prod.fst).Nodup)
    (hnp : ∀ e ∈ l, e.2.status ≠ TaskStatus.pending) :
    (match alGet l k with
     | some task => task.status == TaskStatus.inProgress || task.status == TaskStatus.pending
     | none => false) =
    l.any (fun e => e.1 == k && e.2.status == TaskStatus.inProgress) := by
  induction l with
  | nil => rfl
  | cons hd tl ih =>
      obtain ⟨k0, t0⟩ := hd
      simp only [List.map_cons, List.nodup_cons] at hnd
      by_cases hk : k0 = k
      · have h0 : t0.status ≠ TaskStatus.pending := hnp (k0, t0) (by simp)
        have htl : (tl.any (fun e => e.1 == k && e.2.status == TaskStatus.inProgress)) = false :=
          any_no_key tl k _ (by rw [← hk]; exact hnd.1)
        simp only [alGet, hk, if_pos rfl, List.any_cons, htl, Bool.or_false]
        have hp : (t0.status == TaskStatus.pending) = false := by
          simp [beq_eq_false_iff_ne, h0]
        simp [hp, hk]
      · have hne : (k0 == k) = false := by simp [hk]
        simp only [alGet, if_neg hk, List.any_cons, hne, Bool.false_and, Bool.false_or]
        exact ih hnd.2 (fun e he => hnp e (List.mem_cons_of_mem _ he))

/-- Claim C3: for every idempotency key `k` and every sequence of WorkerPool
operations, the pool never contains two tasks with key `k` that are
simultaneously `pending` or `in-progress` (at most one registry entry with
key `k` is in either status), and `submit` with key `k` is a no-op whenever
`has k` is true. -/
theorem C3_key_exclusion (m : Nat) (evs : List PoolEvent) (k : String) :
    (((applyEvents evs (initPool m)).tasks.filter (fun e =>
        e.1 == k && (e.2.status == TaskStatus.pending ||
          e.2.status == TaskStatus.inProgress))).length ≤ 1) ∧
    ((applyEvents evs (initPool m)).has k = true →
      ∀ (ty : TaskType) (n : Nat) (pr : Option Nat),
        (applyEvents evs (initPool m)).submit k ty n pr
          = (applyEvents evs (initPool m), false)) := by
  have hinv := poolInv_applyEvents evs (initPool m) (poolInv_init m)
  constructor
  · exact filter_key_len _ k _ hinv.1
  · intro hhas ty n pr
    unfold WorkerPool.submit
    by_cases hc : (applyEvents evs (initPool m)).canAccept
    · simp [hc, hhas]
    · simp [hc]

/-- Claim C3 witness: after one submission with key `k`, `has k` holds and a
second submission with key `k` leaves the pool unchanged without starting a
handler. -/
theorem C3_witness :
    (applyEvents [PoolEvent.submit "k" TaskType.issue 1 none] (initPool 1)).submit
        "k" TaskType.issue 1 none
      = (applyEvents [PoolEvent.submit "k" TaskType.issue 1 none] (initPool 1), false) :=
  (C3_key_exclusion 1 [PoolEvent.submit "k" TaskType.issue 1 none] "k").2 (by decide)
    TaskType.issue 1 none

/-- Claim C9: when `canAccept` is false, `submit` is a no-op — the pool state
(registry entries and statuses) is returned unchanged and the handler is not
started. -/
theorem C9_full_pool_noop (p : WorkerPool) (taskId : String) (ty : TaskType)
    (n : Nat) (pr : Option Nat) (h : p.canAccept = false) :
    p.submit taskId ty n pr = (p, false) := by
  unfold WorkerPool.submit
  simp [h]

/-- Claim C9 witness: a pool with maximum concurrency zero cannot accept, and
submission to it changes nothing. -/
theorem C9_witness :
    (initPool 0).submit "k" TaskType.issue 1 none = (initPool 0, false) :=
  C9_full_pool_noop (initPool 0) "k" TaskType.issue 1 none (by decide)

/-- Claim C10: no reachable pool state holds a task with status `pending` —
`submit` registers tasks directly as `in-progress` — so `has k` holds exactly
when an entry with key `k` exists with status `in-progress`. -/
theorem C10_no_pending_status (m : Nat) (evs : List PoolEvent) (k : String) :
    ((applyEvents evs (initPool m)).tasks.all
        (fun e => !(e.2.status == TaskStatus.pending)) = true) ∧
    ((applyEvents evs (initPool m)).has k =
      (applyEvents evs (initPool m)).tasks.any
        (fun e => e.1 == k && e.2.status == TaskStatus.inProgress)) := by
  have hinv := poolInv_applyEvents evs (initPool m) (poolInv_init m)
  constructor
  · rw [List.all_eq_true]
    intro e he
    simpa using hinv.2 e he
  · unfold WorkerPool.has
    exact alGet_status_any _ k hinv.1 hinv.2

/-- Claim C1 counterexample: in a cycle whose new-work scan rejects (the
labeled-issue fetch throws), the feedback scan is never invoked — the single
try/catch around the whole cycle body skips it — refuting the claim that a
failure in one sub-scan never prevents the other. -/
theorem C1_counterexample :
    (Poller.poll ⟨Except.error (), Except.ok [], 5⟩ (initPool 3) 0).reviewRan = false :=
  rfl

/-- Claim C1 amended: the new-work scan is invoked on every cycle (a feedback
scan failure cannot affect it, since the new-work scan runs first and
completes before the feedback scan starts), but the feedback scan is invoked
exactly when the new-work scan does not throw; a throw in the new-work scan
skips the feedback scan of that cycle and is caught at cycle level. -/
theorem C1_amended_scan_dependence (env : PollEnv) (p : WorkerPool) (t : Nat) :
    (Poller.poll env p t).issuesRan = true ∧
    (Poller.poll env p t).reviewRan = exceptOk env.fetchIssues := by
  obtain ⟨fi, fc, now⟩ := env
  cases fi <;> cases fc <;>
    simp [Poller.poll, pollIssues, pollReviewComments, exceptOk]

/-- Claim C6: the Poller's `lastPollTime` is advanced to the cycle's current
time exactly when both sub-scans complete without throwing; if any part of the
cycle throws, the timestamp retains its previous value. -/
theorem C6_timestamp_advance (env : PollEnv) (p : WorkerPool) (t : Nat) :
    (Poller.poll env p t).time =
      if exceptOk env.fetchIssues && exceptOk env.fetchComments then env.now else t := by
  obtain ⟨fi, fc, now⟩ := env
  cases fi <;> cases fc <;>
    simp [Poller.poll, pollIssues, pollReviewComments, exceptOk]

/-- The backward fallback scan yields nothing when no line carries a string
`session_id`. -/
lemma scanBack_none (ls : List String) (h : ∀ l ∈ ls, hasSidLine l = false) :
    scanBack ls = none := by
  induction ls with
  | nil => rfl
  | cons l ls ih =>
      have hl := h l (List.mem_cons_self l ls)
      have htl : scanBack ls = none := ih (fun x hx => h x (List.mem_cons_of_mem _ hx))
      cases hj : jsonParse l with
      | none => simp [scanBack, hj, htl]
      | some v =>
          cases hf : sidField v with
          | error e => simp [scanBack, hj, hf, htl]
          | ok o =>
              cases o with
              | some s => exact absurd hl (by simp [hasSidLine, hj, hf])
              | none => simp [scanBack, hj, hf, htl]

/-- Claim C7: decision-point extraction on the two-marker input yields exactly
the two records with the pipe-separated, whitespace-trimmed fields. -/
theorem C7_decision_point_extraction :
    extractDecisionPoints
        "[DECISION_POINT] use X | X | Y\nnoise\n[DECISION_POINT] cache it | yes | no"
      = [⟨"use X", "X", "Y"⟩, ⟨"cache it", "yes", "no"⟩] := by
  rfl

/-- Claim C8: session-token extraction on the three-line stdout returns the
`session_id` of the middle line by scanning backward, and on any stdout none
of whose lines parses as JSON with a string `session_id` field it returns
none. -/
theorem C8_session_id_extraction :
    extractSessionId "\x7b\"a\":1\x7d\n\x7b\"session_id\":\"s1\"\x7d\n\x7b\"b\":2\x7d"
        = some "s1" ∧
    ∀ stdout : String, ((linesOf stdout).all fun l => !hasSidLine l) = true →
      extractSessionId stdout = none := by
  constructor
  · rfl
  · intro stdout h
    rw [List.all_eq_true] at h
    cases hrev : (linesOf stdout).reverse with
    | nil => simp [extractSessionId, hrev]
    | cons lastLine earlierRev =>
        have hmem : lastLine ∈ linesOf stdout := by
          rw [← List.mem_reverse, hrev]
          exact List.mem_cons_self _ _
        have hlast : hasSidLine lastLine = false := by
          simpa using h lastLine hmem
        cases hj : jsonParse lastLine with
        | none => simp [extractSessionId, hrev, hj]
        | some v =>
            cases hf : sidField v with
            | error e => simp [extractSessionId, hrev, hj, hf]
            | ok o =>
                cases o with
                | some s => exact absurd hlast (by simp [hasSidLine, hj, hf])
                | none =>
                    have hsb : scanBack earlierRev = none :=
                      scanBack_none earlierRev (fun x hx => by
                        have hxm : x ∈ linesOf stdout := by
                          rw [← List.mem_reverse, hrev]
                          exact List.mem_cons_of_mem _ hx
                        simpa using h x hxm)
                    simp [extractSessionId, hrev, hj, hf, hsb]

/-- Claim C8 witness: a stdout none of whose lines is JSON with a string
`session_id` yields no session token. -/
theorem C8_witness : extractSessionId "hello\nworld" = none :=
  C8_session_id_extraction.2 "hello\nworld" (by rfl)

/-- Claim C4 counterexample: the earlier line is valid JSON with a string
`session_id`, the last line is malformed JSON, yet extraction returns none —
the parse failure on the last line reaches the outer catch before the
backward scan is entered — refuting the claimed fallback. -/
theorem C4_counterexample :
    hasSidLine "\x7b\"session_id\":\"s1\"\x7d" = true ∧
    jsonParse "\x7bbad" = none ∧
    extractSessionId "\x7b\"session_id\":\"s1\"\x7d\n\x7bbad" = none :=
  ⟨rfl, rfl, rfl⟩

/-- Claim C4 amended: when the last non-empty line of the stdout is malformed
JSON, extraction returns none without scanning the earlier lines; the
backward fallback scan runs only when the last line parses as JSON but lacks
a string `session_id` field. -/
theorem C4_amended_malformed_last_line (stdout lastLine : String)
    (earlierRev : List String)
    (hrev : (linesOf stdout).reverse = lastLine :: earlierRev)
    (hmal : jsonParse lastLine = none) :
    extractSessionId stdout = none := by
  unfold extractSessionId
  rw [hrev]
  simp [hmal]

/-- Claim C4 witness: a concrete stdout whose last line is malformed yields
none. -/
theorem C4_witness :
    extractSessionId "\x7b\"session_id\":\"s1\"\x7d\n\x7bmangled" = none :=
  C4_amended_malformed_last_line _ "\x7bmangled" ["\x7b\"session_id\":\"s1\"\x7d"]
    (by rfl) (by rfl)

/-- Claim C2 counterexample: a Review run whose agent invocation resolves with
exit code 1 but whose stdout carries a session id overwrites the stored
continuation token for the request id even though the run fails — the store
write happens before the exit-code check — refuting overwrite-only-on-success. -/
theorem C2_counterexample :
    ReviewHandler.handle
        ⟨true, true, true, some ⟨1, "\x7b\"session_id\":\"s2\"\x7d"⟩, true, true, true, true⟩
        [(5, "s1")] 5
      = ([(5, "s2")], false) ∧ ([(5, "s2")] : SessionStore) ≠ [(5, "s1")] :=
  ⟨rfl, by decide⟩

/-- Claim C2 amended: the stored continuation token for the request id is
overwritten exactly when the agent invocation resolves (after branch
resolution, worktree creation and the acknowledgement comment succeed) with an
extracted non-empty session id, regardless of the exit code; when the
invocation rejects, yields no session id, or yields an empty session id (the
truthiness guard on the store write), the store is unchanged. -/
theorem C2_amended_session_store (env : ReviewEnv) (store : SessionStore) (pr : Nat) :
    (ReviewHandler.handle env store pr).1 =
      if env.getPRBranchOk && env.createWorktreeOk && env.ackCommentOk then
        match env.agent with
        | some r =>
            match extractSessionId r.stdout with
            | some s => if s != "" then alSet store pr s else store
            | none => store
        | none => store
      else store := by
  obtain ⟨gb, cw, ac, ag, gp, dc, ec, rwk⟩ := env
  cases gb <;> cases cw <;> cases ac <;> simp [ReviewHandler.handle]
  cases ag with
  | none => rfl
  | some r =>
      cases hs : extractSessionId r.stdout <;>
        simp only [hs] <;>
        by_cases hx : r.exitCode = 0 <;>
        cases gp <;> cases dc <;>
        simp [hx]

/-- Claim C5: an Implement run whose agent invocation returns exit code 1
(with all earlier steps succeeding) performs no push and no PR creation,
attempts exactly one failure-label add, one error comment and one worktree
discard, and attempts the in-progress label removal; the compensating actions
are attempted regardless of each other's success flags. -/
theorem C5_implement_failure_path (env : TaskEnv) (r : AgentOutcome)
    (h1 : env.removeTriggerOk = true) (h2 : env.addInProgressOk = true)
    (h3 : env.ackCommentOk = true) (h4 : env.createWorktreeOk = true)
    (h5 : env.agent = some r) (h6 : r.exitCode = 1) :
    (TaskHandler.handle env).2 = false ∧
    (TaskHandler.handle env).1.count TAct.gitPush = 0 ∧
    (TaskHandler.handle env).1.count TAct.createPR = 0 ∧
    (TaskHandler.handle env).1.count (TAct.addLabel failedLabel) = 1 ∧
    (TaskHandler.handle env).1.count (TAct.postComment CommentKind.errorReport) = 1 ∧
    (TaskHandler.handle env).1.count TAct.removeWorktree = 1 ∧
    TAct.removeLabel inProgressLabel ∈ (TaskHandler.handle env).1 := by
  have hb : taskBody env =
      ([TAct.removeLabel triggerLabel, TAct.addLabel inProgressLabel,
        TAct.postComment CommentKind.ack, TAct.createWorktree,
        TAct.readTodo, TAct.runAgent], false) := by
    simp [taskBody, h1, h2, h3, h4, h5, h6]
  have ht : TaskHandler.handle env =
      ([TAct.removeLabel triggerLabel, TAct.addLabel inProgressLabel,
        TAct.postComment CommentKind.ack, TAct.createWorktree,
        TAct.readTodo, TAct.runAgent,
        TAct.removeLabel inProgressLabel, TAct.addLabel failedLabel,
        TAct.postComment CommentKind.errorReport, TAct.removeWorktree], false) := by
    simp [TaskHandler.handle, hb]
  rw [ht]
  decide

/-- Claim C5 witness: a concrete environment whose compensating calls all fail
still attempts every compensating action, with no push and no PR creation. -/
theorem C5_witness :
    (TaskHandler.handle
        ⟨true, true, true, true, some ⟨1, "out"⟩, true, true, true, true,
          false, false, false⟩).2 = false ∧
    (TaskHandler.handle
        ⟨true, true, true, true, some ⟨1, "out"⟩, true, true, true, true,
          false, false, false⟩).1.count TAct.gitPush = 0 ∧
    (TaskHandler.handle
        ⟨true, true, true, true, some ⟨1, "out"⟩, true, true, true, true,
          false, false, false⟩).1.count TAct.createPR = 0 ∧
    (TaskHandler.handle
        ⟨true, true, true, true, some ⟨1, "out"⟩, true, true, true, true,
          false, false, false⟩).1.count (TAct.addLabel failedLabel) = 1 ∧
    (TaskHandler.handle
        ⟨true, true, true, true, some ⟨1, "out"⟩, true, true, true, true,
          false, false, false⟩).1.count (TAct.postComment CommentKind.errorReport) = 1 ∧
    (TaskHandler.handle
        ⟨true, true, true, true, some ⟨1, "out"⟩, true, true, true, true,
          false, false, false⟩).1.count TAct.removeWorktree = 1 ∧
    TAct.removeLabel inProgressLabel ∈
      (TaskHandler.handle
        ⟨true, true, true, true, some ⟨1, "out"⟩, true, true, true, true,
          false, false, false⟩).1 :=
  C5_implement_failure_path _ ⟨1, "out"⟩ rfl rfl rfl rfl rfl rfl

end Orchestrator
